import Mathlib

/-!
Verification of the "What's on the Menu Today" bot (`bot/main.py`).

This file gives a shallow embedding of the bot's core logic:

* the cutoff-time string parser `parse_before_time` (a model of
  `datetime.strptime` restricted to the four accepted formats),
* tolerant numeric parsing (`pyInt?` models Python's `int(...)`,
  `pyFloat?` models Python's `float(...)`),
* the catalog loader `load_data` (menu and dish record sets joined on the
  "Menu unique ID" field, with invalid dishes dropped and empty menus pruned),
* the time-slot resolver `next_slot_time` / `filter_dishes_for_next_slot_baseline`,
* the callback-button dialogue handler `on_button` together with
  `show_filtered_cards_send_new`, as a pure transition on the per-chat
  session state (`ChatData`) emitting a list of gateway `Effect`s.

Times of day are represented as seconds since midnight (a `datetime.time`
with zero microseconds compares exactly like its second count).  Python
dicts are represented as association lists with distinct keys, built only
through `dictSet`, which preserves insertion order exactly like a dict.
Wall-clock reads (`now_in_baseline_tz`) and random draws
(`random.shuffle`, `random.choice`) are passed in through the `Env`
parameter; message sends and edits become `Effect` values carrying the
inputs of the corresponding render.
-/

/-- Python `min` over a non-empty list of times (`min` of `List Nat`);
`listMin [] = 0` is never used by callers that mirror the source. -/
def listMin : List Nat → Nat
  | [] => 0
  | x :: xs => xs.foldl Nat.min x

/-- First occurrence lookup in an association list (Python `d.get(k)`). -/
def dictGet? {α : Type} (d : List (String × α)) (k : String) : Option α :=
  match d with
  | [] => none
  | (k1, v) :: rest => if k1 = k then some v else dictGet? rest k

/-- Python `d.get(k, dflt)`. -/
def dictGetD {α : Type} (d : List (String × α)) (k : String) (dflt : α) : α :=
  (dictGet? d k).getD dflt

/-- Python `d[k] = v`: replace the value in place if the key exists,
otherwise append the new key at the end (dict insertion order). -/
def dictSet {α : Type} (d : List (String × α)) (k : String) (v : α) :
    List (String × α) :=
  match d with
  | [] => [(k, v)]
  | (k1, v1) :: rest => if k1 = k then (k1, v) :: rest else (k1, v1) :: dictSet rest k v

/-- Python `list(d.keys())`. -/
def dictKeys {α : Type} (d : List (String × α)) : List String := d.map Prod.fst

/-- Python `s.strip()`: drop whitespace from both ends. -/
def pyStrip (s : String) : String :=
  ⟨(((s.data.dropWhile Char.isWhitespace).reverse.dropWhile Char.isWhitespace).reverse)⟩

/-- Numeric value of an ASCII digit character. -/
def digitVal (c : Char) : Nat := c.toNat - 48

/-- The `%H` field of `strptime` (regex `2[0-3]|[0-1]\d|\d`): candidate
(value, rest) pairs in regex alternation priority order. -/
def candsH24 : List Char → List (Nat × List Char)
  | a :: b :: rest =>
    (if a.isDigit ∧ b.isDigit ∧ 10 * digitVal a + digitVal b ≤ 23 then
      [(10 * digitVal a + digitVal b, rest)] else [])
    ++ (if a.isDigit then [(digitVal a, b :: rest)] else [])
  | [a] => if a.isDigit then [(digitVal a, [])] else []
  | [] => []

/-- The `%I` field of `strptime` (regex `1[0-2]|0[1-9]|[1-9]`). -/
def candsH12 : List Char → List (Nat × List Char)
  | a :: b :: rest =>
    (if a.isDigit ∧ b.isDigit ∧ digitVal a ≤ 1 ∧ 1 ≤ 10 * digitVal a + digitVal b
        ∧ 10 * digitVal a + digitVal b ≤ 12 then
      [(10 * digitVal a + digitVal b, rest)] else [])
    ++ (if a.isDigit ∧ 1 ≤ digitVal a then [(digitVal a, b :: rest)] else [])
  | [a] => if a.isDigit ∧ 1 ≤ digitVal a then [(digitVal a, [])] else []
  | [] => []

/-- The `%M` field of `strptime` (regex `[0-5]\d|\d`). -/
def candsM : List Char → List (Nat × List Char)
  | a :: b :: rest =>
    (if a.isDigit ∧ b.isDigit ∧ digitVal a ≤ 5 then
      [(10 * digitVal a + digitVal b, rest)] else [])
    ++ (if a.isDigit then [(digitVal a, b :: rest)] else [])
  | [a] => if a.isDigit then [(digitVal a, [])] else []
  | [] => []

/-- The `%S` field of `strptime` (regex `6[0-1]|[0-5]\d|\d`); 60 and 61 match
the regex but make the later `datetime(...)` construction raise. -/
def candsS : List Char → List (Nat × List Char)
  | a :: b :: rest =>
    (if a.isDigit ∧ b.isDigit ∧ 10 * digitVal a + digitVal b ≤ 61 then
      [(10 * digitVal a + digitVal b, rest)] else [])
    ++ (if a.isDigit then [(digitVal a, b :: rest)] else [])
  | [a] => if a.isDigit then [(digitVal a, [])] else []
  | [] => []

/-- The `%p` field of `strptime`: `AM`/`PM`, case-insensitive (C locale);
`true` means PM. -/
def candsP : List Char → List (Bool × List Char)
  | a :: b :: rest =>
    if (a = 'A' ∨ a = 'a') ∧ (b = 'M' ∨ b = 'm') then [(false, rest)]
    else if (a = 'P' ∨ a = 'p') ∧ (b = 'M' ∨ b = 'm') then [(true, rest)]
    else []
  | _ => []

/-- Whitespace in a `strptime` format string matches `\s+` (greedy). -/
def matchWs : List Char → Option (List Char)
  | c :: rest => if c.isWhitespace then some (rest.dropWhile Char.isWhitespace) else none
  | [] => none

/-- Try alternatives in priority order, keeping the first success
(regex backtracking over the candidate lists above). -/
def firstSome {α β : Type} (f : α → Option β) : List α → Option β
  | [] => none
  | x :: xs =>
    match f x with
    | some b => some b
    | none => firstSome f xs

/-- 24-hour clock value in seconds from a 12-hour clock hour and an AM/PM flag
(the `strptime` `%I`/`%p` combination rule). -/
def hourFrom12 (h : Nat) (pm : Bool) : Nat :=
  if pm then (if h = 12 then 12 else h + 12) else (if h = 12 then 0 else h)

/-- `strptime(value, "%H:%M")`, as seconds since midnight. -/
def strpHM (cs : List Char) : Option Nat :=
  firstSome (fun hp =>
    match hp.2 with
    | ':' :: r2 =>
      firstSome (fun mp =>
        if mp.2 = [] then some (3600 * hp.1 + 60 * mp.1) else none) (candsM r2)
    | _ => none) (candsH24 cs)

/-- `strptime(value, "%H:%M:%S")`; a matched second of 60 or 61 makes the
datetime construction raise, so the whole format attempt fails. -/
def strpHMS (cs : List Char) : Option Nat :=
  match firstSome (fun hp =>
    match hp.2 with
    | ':' :: r2 =>
      firstSome (fun mp =>
        match mp.2 with
        | ':' :: r4 =>
          firstSome (fun sp =>
            if sp.2 = [] then some (hp.1, mp.1, sp.1) else none) (candsS r4)
        | _ => none) (candsM r2)
    | _ => none) (candsH24 cs) with
  | some (h, m, s) => if s ≤ 59 then some (3600 * h + 60 * m + s) else none
  | none => none

/-- `strptime(value, "%I:%M %p")`, as seconds since midnight. -/
def strpIMp (cs : List Char) : Option Nat :=
  firstSome (fun hp =>
    match hp.2 with
    | ':' :: r2 =>
      firstSome (fun mp =>
        match matchWs mp.2 with
        | some r4 =>
          firstSome (fun pp =>
            if pp.2 = [] then some (3600 * hourFrom12 hp.1 pp.1 + 60 * mp.1)
            else none) (candsP r4)
        | none => none) (candsM r2)
    | _ => none) (candsH12 cs)

/-- `strptime(value, "%I:%M:%S %p")`; seconds 60/61 fail as in `strpHMS`. -/
def strpIMSp (cs : List Char) : Option Nat :=
  match firstSome (fun hp =>
    match hp.2 with
    | ':' :: r2 =>
      firstSome (fun mp =>
        match mp.2 with
        | ':' :: r4 =>
          firstSome (fun sp =>
            match matchWs sp.2 with
            | some r6 =>
              firstSome (fun pp =>
                if pp.2 = [] then some (hp.1, mp.1, sp.1, pp.1) else none) (candsP r6)
            | none => none) (candsS r4)
        | _ => none) (candsM r2)
    | _ => none) (candsH12 cs) with
  | some (h, m, s, pm) =>
    if s ≤ 59 then some (3600 * hourFrom12 h pm + 60 * m + s) else none
  | none => none

/-- `parse_before_time` from the source: empty value is `None`, otherwise the
stripped value is tried against `["%I:%M:%S %p", "%I:%M %p", "%H:%M:%S",
"%H:%M"]` in order and the first matching format wins. -/
def parse_before_time (value : String) : Option Nat :=
  if value = "" then none
  else
    let v := (pyStrip value).data
    match strpIMSp v with
    | some t => some t
    | none =>
      match strpIMp v with
      | some t => some t
      | none =>
        match strpHMS v with
        | some t => some t
        | none => strpHM v

/-- Digit run with single underscores allowed between digits
(Python numeric literal rule); accumulates value, count of digits,
and the unconsumed rest. -/
def takeDigitRun : List Char → Nat → Nat → Nat × Nat × List Char
  | '_' :: c :: rest, acc, k =>
    if c.isDigit then takeDigitRun rest (10 * acc + digitVal c) (k + 1)
    else (acc, k, '_' :: c :: rest)
  | c :: rest, acc, k =>
    if c.isDigit then takeDigitRun rest (10 * acc + digitVal c) (k + 1)
    else (acc, k, c :: rest)
  | [], acc, k => (acc, k, [])

/-- A digit run that must start with a digit (no leading underscore). -/
def takeDigits1 : List Char → Option (Nat × Nat × List Char)
  | c :: rest => if c.isDigit then some (takeDigitRun rest (digitVal c) 1) else none
  | [] => none

/-- A digit run that must consume the whole input. -/
def allDigits1 (cs : List Char) : Option Nat :=
  match takeDigits1 cs with
  | some (v, _, []) => some v
  | _ => none

/-- Python `int(s)` on a decimal string: strip, optional sign, digits with
underscores between digits; anything else raises `ValueError` (`none`). -/
def pyInt? (s : String) : Option Int :=
  match (pyStrip s).data with
  | '+' :: rest => (allDigits1 rest).map Int.ofNat
  | '-' :: rest => (allDigits1 rest).map (fun n => -(n : Int))
  | rest => (allDigits1 rest).map Int.ofNat

/-- Values of Python `float(...)`: a finite value kept exact as a fraction
`num / den` with `den` a positive power of ten (binary rounding and overflow
to infinity are irrelevant to the claims and not modelled; the fraction is
left unnormalised so that it stays kernel-computable), an infinity, or a NaN. -/
inductive PyFloat where
  | finite (num : Int) (den : Nat)
  | inf (neg : Bool)
  | nan
deriving DecidableEq, Repr

/-- Exponent part of a float literal after `e`/`E`: optional sign then digits. -/
def parseExp : List Char → Option Int
  | '+' :: rest => (allDigits1 rest).map Int.ofNat
  | '-' :: rest => (allDigits1 rest).map (fun n => -(n : Int))
  | rest => (allDigits1 rest).map Int.ofNat

/-- Multiply the fraction `num / den` by `10 ^ e`. -/
def scale10 (num : Int) (den : Nat) : Int → Int × Nat
  | .ofNat n => (num * (10 : Int) ^ n, den)
  | .negSucc n => (num, den * 10 ^ (n + 1))

/-- Finish a float literal whose mantissa value is `a + b / 10 ^ k`:
either the end of the string or an exponent part. -/
def finishFloat (a b : Nat) (k : Nat) (r : List Char) : Option (Int × Nat) :=
  let num : Int := (a * 10 ^ k + b : Nat)
  let den : Nat := 10 ^ k
  match r with
  | [] => some (num, den)
  | 'e' :: r2 => (parseExp r2).map (scale10 num den)
  | 'E' :: r2 => (parseExp r2).map (scale10 num den)
  | _ => none

/-- The numeric body of a float literal (after the optional sign):
`digits [. [digits]] [exp]` or `. digits [exp]`. -/
def parseNumBody (cs : List Char) : Option (Int × Nat) :=
  match cs with
  | '.' :: rest =>
    match takeDigits1 rest with
    | some (b, k, r) => finishFloat 0 b k r
    | none => none
  | _ =>
    match takeDigits1 cs with
    | some (a, _, r) =>
      match r with
      | '.' :: r2 =>
        (match takeDigits1 r2 with
         | some (b, k, r3) => finishFloat a b k r3
         | none => finishFloat a 0 0 r2)
      | _ => finishFloat a 0 0 r
    | none => none

/-- The body of `float(s)` after the sign: `inf`, `infinity`, `nan`
(case-insensitive) or a numeric literal. -/
def pyFloatBody (cs : List Char) (neg : Bool) : Option PyFloat :=
  let low := cs.map Char.toLower
  if low = "inf".data ∨ low = "infinity".data then some (.inf neg)
  else if low = "nan".data then some .nan
  else (parseNumBody cs).map (fun p => .finite (if neg then -p.1 else p.1) p.2)

/-- Python `float(s)`: strip, optional sign, then the float body;
`none` when `float` raises. -/
def pyFloat? (s : String) : Option PyFloat :=
  match (pyStrip s).data with
  | '+' :: rest => pyFloatBody rest false
  | '-' :: rest => pyFloatBody rest true
  | rest => pyFloatBody rest false

/-- The `Dish` dataclass from the source.  `before_time` is the parsed
cutoff time in seconds since midnight, interpreted in the GMT+7 baseline. -/
structure Dish where
  menu_id : String
  menu_name : String
  dish : String
  price : PyFloat
  tagline : String
  nutrition : String
  challenge : String
  challenge_id : String
  best_timing : String
  before_timing_raw : String
  before_time : Nat
deriving DecidableEq, Repr

/-- A raw record of `Menulist.json`; each field is the `str(...)` of the
JSON value under the corresponding key, or `none` when the key is absent
(the two spellings "For who"/"For Who" are merged into one field). -/
structure MenuRow where
  menu_unique_id : Option String
  menu : Option String
  for_who : Option String
deriving Repr

/-- A raw record of `MenuAndDishes.json`; `str(...)` of each value, `none`
when the key is absent.  `price` holds the literal text of the "Price"
value handed to `float(...)`. -/
structure DishRow where
  menu_unique_id : Option String
  menu : Option String
  dish : Option String
  price : Option String
  tag_line : Option String
  nutrition_fact : Option String
  challenge : Option String
  challenge_unique_id : Option String
  best_timing : Option String
  before_timing : Option String
deriving Repr

/-- One iteration of the menu loop of `load_data`: keep the row when both
the stripped id and the stripped name are non-empty. -/
def addMenuRow (acc : List (String × String) × List (String × String))
    (row : MenuRow) : List (String × String) × List (String × String) :=
  let mid := pyStrip (row.menu_unique_id.getD "")
  let name := pyStrip (row.menu.getD "")
  let fw := pyStrip (row.for_who.getD "")
  if mid ≠ "" ∧ name ≠ "" then (dictSet acc.1 mid name, dictSet acc.2 mid fw)
  else acc

/-- The first loop of `load_data`: build `menus_by_id` and `MENUS_FOR_WHO`
from the menu records. -/
def buildMenus (rows : List MenuRow) :
    List (String × String) × List (String × String) :=
  rows.foldl addMenuRow ([], [])

/-- The body of the dish loop of `load_data` for one record: `none` exactly
when the loop `continue`s (empty stripped menu id, empty stripped dish name,
or unparseable cutoff time); otherwise the constructed `Dish`.  The price
falls back to `0.0` when `float(...)` raises. -/
def loadDishRow (menus_by_id : List (String × String)) (row : DishRow) :
    Option Dish :=
  let mid := pyStrip (row.menu_unique_id.getD "")
  let menu_name := pyStrip (row.menu.getD (dictGetD menus_by_id mid ""))
  let dish_name := pyStrip (row.dish.getD "")
  let before_raw := pyStrip (row.before_timing.getD "")
  if mid = "" ∨ dish_name = "" then none
  else
    match parse_before_time before_raw with
    | none => none
    | some before_t =>
      some { menu_id := mid
             menu_name := menu_name
             dish := dish_name
             price := (pyFloat? (row.price.getD "0")).getD (.finite 0 1)
             tagline := pyStrip (row.tag_line.getD "")
             nutrition := pyStrip (row.nutrition_fact.getD "")
             challenge := pyStrip (row.challenge.getD "")
             challenge_id := pyStrip (row.challenge_unique_id.getD "")
             best_timing := pyStrip (row.best_timing.getD "")
             before_timing_raw := before_raw
             before_time := before_t }

/-- One iteration of the dish loop of `load_data`:
`dishes_by_menu.setdefault(mid, []).append(dish)` for a record that is not
skipped, the unchanged map otherwise. -/
def addDishRow (menus_by_id : List (String × String))
    (dbm : List (String × List Dish)) (row : DishRow) :
    List (String × List Dish) :=
  match loadDishRow menus_by_id row with
  | none => dbm
  | some d => dictSet dbm d.menu_id (dictGetD dbm d.menu_id [] ++ [d])

/-- The dish loop of `load_data`, starting from
`{k: [] for k in menus_by_id}`. -/
def buildDishes (menus_by_id : List (String × String))
    (rows : List DishRow) : List (String × List Dish) :=
  rows.foldl (addDishRow menus_by_id)
    (menus_by_id.map (fun p => (p.1, ([] : List Dish))))

/-- `load_data`: build both maps, then pop every menu id whose dish list
stayed empty from both `dishes_by_menu` and `menus_by_id` (the popping loop
runs over the distinct keys of `dishes_by_menu`, so it is the filter below);
returns `(menus_by_id, MENUS_FOR_WHO, dishes_by_menu)`. -/
def load_data (menus_raw : List MenuRow) (dishes_raw : List DishRow) :
    List (String × String) × List (String × String) × List (String × List Dish) :=
  let ms := buildMenus menus_raw
  let dbm1 := buildDishes ms.1 dishes_raw
  let dbm := dbm1.filter (fun p => p.2 ≠ [])
  let menus := ms.1.filter (fun p => dictGetD dbm1 p.1 [] ≠ [])
  (menus, ms.2, dbm)

/-- `next_slot_time` from the source: the wall-clock argument
`today_in_base.time()` is the parameter `now_t` (seconds since midnight in
the GMT+7 baseline). -/
def next_slot_time (now_t : Nat) (times : List Nat) : Nat :=
  if times = [] then 0
  else
    let after := times.filter (fun t => now_t < t)
    if after ≠ [] then listMin after else listMin times

/-- Sorted list of the distinct cutoff times
(Python `sorted({d.before_time for d in dishes})`). -/
def sortedSlots (dishes : List Dish) : List Nat :=
  ((dishes.map (fun d => d.before_time)).dedup).insertionSort (· ≤ ·)

/-- `filter_dishes_for_next_slot_baseline` from the source; the read of
`now_in_baseline_tz()` is the parameter `now_t`. -/
def filter_dishes_for_next_slot_baseline (now_t : Nat) (dishes : List Dish) :
    List Dish × Nat :=
  let slots := sortedSlots dishes
  if slots = [] then ([], 0)
  else
    let target := next_slot_time now_t slots
    (dishes.filter (fun d => d.before_time == target), target)

/-- The loaded catalog globals: `MENUS_BY_ID`, `MENUS_FOR_WHO`,
`DISHES_BY_MENU`. -/
structure Catalog where
  menus_by_id : List (String × String)
  menus_for_who : List (String × String)
  dishes_by_menu : List (String × List Dish)

/-- The per-conversation `context.chat_data` bag.  A key that the code sets
to `None` or pops is `none` here (`dict.get` cannot tell the two apart);
`cards_dishes` defaults to `[]` the same way. -/
structure ChatData where
  menu_id : Option String
  cards_dishes : List Dish
  list_msg_id : Option Nat
  last_menu_list_msg_id : Option Nat
  menu_subset : Option (List String)
deriving DecidableEq, Repr

/-- `context.chat_data.clear()`, and also the state of a fresh conversation. -/
def ChatData.cleared : ChatData :=
  { menu_id := none, cards_dishes := [], list_msg_id := none
    last_menu_list_msg_id := none, menu_subset := none }

/-- The ambient inputs of one handler invocation that the source reads from
the outside world: the wall clock, the random draws, and the message ids
handed out by the gateway. -/
structure Env where
  now_t : Nat
  subsetSample : List String
  randIndex : Nat
  cbMsgId : Nat
  newMsgId : Nat

/-- Python truthiness of an optional message id (`if menu_list_id:` /
`not list_msg_id`): `None` and `0` are falsy. -/
def optNatTruthy : Option Nat → Bool
  | none => false
  | some n => n != 0

/-- One outbound action of a handler.  Each constructor stands for one
send/edit/log call site of the source and carries the inputs of the
corresponding render. -/
inductive Effect where
  | answerCallback
  | logEvent (event : String)
  | editToMenuList (subset : List String)
  | editToSelectedMenu (msgId : Nat) (mid : String)
  | editUnavailable
  | sendNoDishes (menuName : String)
  | sendDishList (menuName : String) (dishes : List Dish)
  | editToCard (msgId : Nat) (d : Dish)
  | appendDashboard (challenge_id dish menu : String)
  | sendChallenge (d : Dish)
  | sendCommandsHelp
  | editFallbackHelp
  | sendTextPrompt
deriving DecidableEq, Repr

/-- Whether an effect is a `log_event` call. -/
def Effect.isLog : Effect → Bool
  | .logEvent _ => true
  | _ => false

/-- A placeholder dish for the (guarded, unreachable) out-of-bounds read. -/
def dishDefault : Dish :=
  { menu_id := "", menu_name := "", dish := "", price := .finite 0 1
    tagline := "", nutrition := "", challenge := "", challenge_id := ""
    best_timing := "", before_timing_raw := "", before_time := 0 }

/-- `show_filtered_cards_send_new`: read the selected menu, filter its dishes
to the active bucket, and either send a fallback notice (no state change) or
send the dish list and record it in `cards_dishes` / `list_msg_id`. -/
def show_filtered_cards_send_new (cat : Catalog) (env : Env) (s : ChatData) :
    ChatData × List Effect :=
  let mid := s.menu_id.getD ""
  let all_dishes := dictGetD cat.dishes_by_menu mid []
  let menu_name := dictGetD cat.menus_by_id mid "Selected Menu"
  let fd := filter_dishes_for_next_slot_baseline env.now_t all_dishes
  if fd.1 = [] then (s, [.sendNoDishes menu_name])
  else ({ s with cards_dishes := fd.1, list_msg_id := some env.newMsgId },
        [.sendDishList menu_name fd.1])

/-- The callback-query handler `on_button`, on the character list of the
token, branching exactly as the source does (`"list"`, `"r"`, `"m:<id>"`,
`"b"`, `"sel:<idx>"`, else the fallback; the branch tests are mutually
exclusive, so the if-chain of the source and this match agree).
`random.choice` over the dish-map keys is the element at `Env.randIndex`;
`pick_menu_subset()` is `Env.subsetSample`; `query.message.message_id` is
`Env.cbMsgId`. -/
def on_button_core (cat : Catalog) (env : Env) (cs : List Char) (s : ChatData) :
    ChatData × List Effect :=
  match cs with
  | ['l', 'i', 's', 't'] =>
    let subset := env.subsetSample
    ({ ChatData.cleared with menu_subset := some subset
                             last_menu_list_msg_id := some env.cbMsgId },
     [.answerCallback, .logEvent "menu_list_opened", .editToMenuList subset])
  | ['r'] =>
    let keys := dictKeys cat.dishes_by_menu
    let mid := keys.getD (env.randIndex % keys.length) ""
    let s1 := { s with menu_id := some mid }
    let collapse :=
      if optNatTruthy s1.last_menu_list_msg_id then
        (s1, [Effect.editToSelectedMenu (s1.last_menu_list_msg_id.getD 0) mid])
      else
        ({ s1 with last_menu_list_msg_id := some env.cbMsgId },
         [Effect.editToSelectedMenu env.cbMsgId mid])
    let shown := show_filtered_cards_send_new cat env collapse.1
    (shown.1, [.answerCallback, .logEvent "menu_random"] ++ collapse.2 ++ shown.2)
  | 'm' :: ':' :: restm =>
    if dictGet? cat.dishes_by_menu ⟨restm⟩ = none then
      (s, [.answerCallback, .editUnavailable])
    else
      let s1 := { s with menu_id := some (⟨restm⟩ : String)
                         last_menu_list_msg_id := some env.cbMsgId }
      let shown := show_filtered_cards_send_new cat env s1
      (shown.1,
       [.answerCallback, .logEvent "menu_selected",
        .editToSelectedMenu env.cbMsgId ⟨restm⟩] ++ shown.2)
  | ['b'] =>
    let subset := env.subsetSample
    ({ s with menu_id := none, cards_dishes := [], list_msg_id := none
              menu_subset := some subset
              last_menu_list_msg_id := some env.cbMsgId },
     [.answerCallback, .logEvent "back_to_menus", .editToMenuList subset])
  | 's' :: 'e' :: 'l' :: ':' :: restp =>
    if s.menu_id = none then
      (s, [.answerCallback, .editToMenuList (s.menu_subset.getD env.subsetSample)])
    else
      if s.cards_dishes = [] ∨ (pyInt? ⟨restp⟩).getD 0 < 0
          ∨ (s.cards_dishes.length : Int) ≤ (pyInt? ⟨restp⟩).getD 0
          ∨ optNatTruthy s.list_msg_id = false then
        (s, [.answerCallback, .editToMenuList (s.menu_subset.getD env.subsetSample)])
      else
        let d := s.cards_dishes.getD ((pyInt? ⟨restp⟩).getD 0).toNat dishDefault
        ({ s with cards_dishes := [], list_msg_id := none },
         [.answerCallback, .editToCard (s.list_msg_id.getD 0) d,
          .appendDashboard d.challenge_id d.dish
            (dictGetD cat.menus_by_id d.menu_id d.menu_name),
          .logEvent "dish_selected", .sendChallenge d, .sendCommandsHelp])
  | _ => (s, [.answerCallback, .editFallbackHelp])

/-- `on_button` applied to the callback token string. -/
def on_button (cat : Catalog) (env : Env) (data : String) (s : ChatData) :
    ChatData × List Effect :=
  on_button_core cat env data.data s

/-- `on_text`: free-form text never mutates `chat_data`; it logs and
re-prompts. -/
def on_text (s : ChatData) : ChatData × List Effect :=
  (s, [.logEvent "free_text_blocked", .sendTextPrompt])

/-- Concrete dish with an 11:00 cutoff, for witnesses. -/
def dishA : Dish :=
  { menu_id := "m1", menu_name := "Menu One", dish := "Dish A"
    price := .finite 0 1, tagline := "", nutrition := "", challenge := "walk"
    challenge_id := "c1", best_timing := "", before_timing_raw := "11:00"
    before_time := 39600 }

/-- Concrete dish with a 14:00 cutoff, for witnesses. -/
def dishB : Dish :=
  { menu_id := "m1", menu_name := "Menu One", dish := "Dish B"
    price := .finite 0 1, tagline := "", nutrition := "", challenge := "run"
    challenge_id := "c2", best_timing := "", before_timing_raw := "14:00"
    before_time := 50400 }

/-- Concrete one-menu catalog, for witnesses. -/
def catX : Catalog :=
  { menus_by_id := [("m1", "Menu One")], menus_for_who := [("m1", "")]
    dishes_by_menu := [("m1", [dishA, dishB])] }

/-- Concrete environment, for witnesses. -/
def envX : Env :=
  { now_t := 0, subsetSample := ["m1"], randIndex := 0, cbMsgId := 3, newMsgId := 7 }

/-- Session showing the two dishes of `catX`, for witnesses. -/
def stateTwoDishes : ChatData :=
  { menu_id := some "m1", cards_dishes := [dishA, dishB], list_msg_id := some 7
    last_menu_list_msg_id := some 3, menu_subset := some ["m1"] }

/-- A menu record, for witnesses. -/
def menuRowM1 : MenuRow :=
  { menu_unique_id := some "m1", menu := some "Menu One", for_who := none }

/-- A dish record whose "Price" value is the string `-5`. -/
def negPriceRow : DishRow :=
  { menu_unique_id := some "m1", menu := some "Menu One", dish := some "Cheap"
    price := some "-5", tag_line := none, nutrition_fact := none
    challenge := none, challenge_unique_id := none, best_timing := none
    before_timing := some "11:00" }

/-- The dish `load_data` builds from `negPriceRow`: its price is `-5`. -/
def negPriceDish : Dish :=
  { menu_id := "m1", menu_name := "Menu One", dish := "Cheap"
    price := .finite (-5) 1, tagline := "", nutrition := "", challenge := ""
    challenge_id := "", best_timing := "", before_timing_raw := "11:00"
    before_time := 39600 }

/-- A dish record whose "Price" value is the unparseable string `abc`. -/
def abcPriceRow : DishRow :=
  { menu_unique_id := some "m1", menu := some "Menu One", dish := some "Mystery"
    price := some "abc", tag_line := none, nutrition_fact := none
    challenge := none, challenge_unique_id := none, best_timing := none
    before_timing := some "11:00" }

/-- The dish the loader builds from `abcPriceRow`: price falls back to 0. -/
def abcPriceDish : Dish :=
  { menu_id := "m1", menu_name := "Menu One", dish := "Mystery"
    price := .finite 0 1, tagline := "", nutrition := "", challenge := ""
    challenge_id := "", best_timing := "", before_timing_raw := "11:00"
    before_time := 39600 }

/-- A valid dish record whose menu id `x` has no record in the menu list. -/
def orphanRow : DishRow :=
  { menu_unique_id := some "x", menu := none, dish := some "a", price := none
    tag_line := none, nutrition_fact := none, challenge := none
    challenge_unique_id := none, best_timing := none
    before_timing := some "11:00" }

/-- The dish `load_data` builds from `orphanRow`. -/
def orphanDish : Dish :=
  { menu_id := "x", menu_name := "", dish := "a", price := .finite 0 1
    tagline := "", nutrition := "", challenge := "", challenge_id := ""
    best_timing := "", before_timing_raw := "11:00", before_time := 39600 }

/-- The catalog loaded from an empty menu list and the single `orphanRow`. -/
def catOrphan : Catalog :=
  { menus_by_id := (load_data [] [orphanRow]).1
    menus_for_who := (load_data [] [orphanRow]).2.1
    dishes_by_menu := (load_data [] [orphanRow]).2.2 }

/-- The session invariant of the navigation state store: the visible dish
list and the active-list message reference are both populated or both
empty. -/
@[reducible] def ChatData.Inv (s : ChatData) : Prop :=
  s.cards_dishes = [] ↔ s.list_msg_id = none

theorem parse_before_time_sanity :
    parse_before_time "11:00" = some 39600 ∧
    parse_before_time "9:30 PM" = some 77400 ∧
    parse_before_time "09:30:15 pm" = some 77415 ∧
    parse_before_time "24:00" = none ∧
    parse_before_time "10:30:61" = none ∧
    parse_before_time "" = none ∧
    parse_before_time "  " = none := by decide

theorem py_numeric_sanity :
    pyInt? "2" = some 2 ∧ pyInt? "-1" = some (-1) ∧
    pyInt? "abc" = none ∧ pyInt? "" = none ∧
    pyFloat? "abc" = none ∧ pyFloat? "-5" = some (.finite (-5) 1) ∧
    pyFloat? "2.5" = some (.finite 25 10) ∧ pyFloat? "nan" = some .nan ∧
    pyFloat? "-inf" = some (.inf true) ∧ pyFloat? "1e2" = some (.finite 100 1) ∧
    pyFloat? "1_0" = some (.finite 10 1) ∧ pyFloat? "1_" = none ∧
    pyFloat? ".5e-1" = some (.finite 5 100) ∧ pyFloat? "" = none := by decide

theorem foldl_min_le_init (xs : List Nat) (a : Nat) : xs.foldl Nat.min a ≤ a := by
  induction xs generalizing a with
  | nil => simp
  | cons x xs ih =>
    simpa using le_trans (ih (Nat.min a x)) (Nat.min_le_left a x)

theorem foldl_min_le_mem (xs : List Nat) (a : Nat) :
    ∀ u ∈ xs, xs.foldl Nat.min a ≤ u := by
  induction xs generalizing a with
  | nil => simp
  | cons x xs ih =>
    intro u hu
    rcases List.mem_cons.mp hu with h | h
    · subst h
      simpa using le_trans (foldl_min_le_init xs _) (Nat.min_le_right a u)
    · simpa using ih (Nat.min a x) u h

theorem foldl_min_mem (xs : List Nat) (a : Nat) :
    xs.foldl Nat.min a = a ∨ xs.foldl Nat.min a ∈ xs := by
  induction xs generalizing a with
  | nil => left; rfl
  | cons x xs ih =>
    simp only [List.foldl_cons]
    rcases ih (Nat.min a x) with h | h
    · have hmx : Nat.min a x = a ∨ Nat.min a x = x :=
        (Nat.le_total a x).imp (fun h1 => Nat.min_eq_left h1)
          (fun h1 => Nat.min_eq_right h1)
      rcases hmx with hmx | hmx
      · left; rw [h, hmx]
      · right; rw [h, hmx]; exact List.mem_cons_self x xs
    · right; exact List.mem_cons_of_mem x h

theorem listMin_mem (times : List Nat) (hne : times ≠ []) : listMin times ∈ times := by
  obtain ⟨y, ys, rfl⟩ := List.exists_cons_of_ne_nil hne
  show ys.foldl Nat.min y ∈ y :: ys
  rcases foldl_min_mem ys y with h | h
  · rw [h]; exact List.mem_cons_self y ys
  · exact List.mem_cons_of_mem y h

theorem listMin_le (times : List Nat) (hne : times ≠ []) :
    ∀ u ∈ times, listMin times ≤ u := by
  obtain ⟨y, ys, rfl⟩ := List.exists_cons_of_ne_nil hne
  intro u hu
  rcases List.mem_cons.mp hu with h | h
  · subst h; exact foldl_min_le_init ys u
  · exact foldl_min_le_mem ys y u h

/-- Claim C1: for every non-empty list of cutoff times and every current
time-of-day, `next_slot_time` returns an element of the list; when some
element is strictly greater than now it returns the least such element,
otherwise it returns an element that is a lower bound of the whole list
(its minimum); and on cutoffs 11:00, 14:00, 20:00 the bucket at 10:30 is
11:00, at 15:00 it is 20:00, and at 21:00 it wraps to 11:00. -/
theorem C1_next_slot_time (times : List Nat) (now_t : Nat) (hne : times ≠ []) :
    next_slot_time now_t times ∈ times ∧
    (∀ u ∈ times, now_t < u →
      now_t < next_slot_time now_t times ∧ next_slot_time now_t times ≤ u) ∧
    ((∀ u ∈ times, u ≤ now_t) → ∀ u ∈ times, next_slot_time now_t times ≤ u) ∧
    next_slot_time 37800 [39600, 50400, 72000] = 39600 ∧
    next_slot_time 54000 [39600, 50400, 72000] = 72000 ∧
    next_slot_time 75600 [39600, 50400, 72000] = 39600 := by
  have hval : next_slot_time now_t times =
      if times.filter (fun t => now_t < t) ≠ [] then
        listMin (times.filter (fun t => now_t < t))
      else listMin times := by
    simp only [next_slot_time, if_neg hne]
  by_cases hf : times.filter (fun t => now_t < t) = []
  · rw [hval, if_neg (by simpa using hf)]
    refine ⟨listMin_mem times hne, ?_, ?_, by decide, by decide, by decide⟩
    · intro u hu hlt
      have hmem : u ∈ times.filter (fun t => decide (now_t < t)) :=
        List.mem_filter.mpr ⟨hu, decide_eq_true hlt⟩
      rw [hf] at hmem
      exact absurd hmem (List.not_mem_nil u)
    · intro _ u hu
      exact listMin_le times hne u hu
  · rw [hval, if_pos (by simpa using hf)]
    have hm := listMin_mem _ hf
    have hmem := List.mem_filter.mp hm
    refine ⟨hmem.1, ?_, ?_, by decide, by decide, by decide⟩
    · intro u hu hlt
      exact ⟨of_decide_eq_true hmem.2,
        listMin_le _ hf u (List.mem_filter.mpr ⟨hu, decide_eq_true hlt⟩)⟩
    · intro hall
      exact absurd (hall _ hmem.1) (Nat.not_le.mpr (of_decide_eq_true hmem.2))

theorem C1_witness :
    [(39600 : Nat), 50400, 72000] ≠ [] ∧
    next_slot_time 37800 [39600, 50400, 72000] ∈ [(39600 : Nat), 50400, 72000] :=
  ⟨by decide, (C1_next_slot_time [39600, 50400, 72000] 37800 (by decide)).1⟩

theorem sortedSlots_eq_nil_iff (dishes : List Dish) :
    sortedSlots dishes = [] ↔ dishes = [] := by
  unfold sortedSlots
  constructor
  · intro h
    have hp := List.perm_insertionSort (· ≤ ·) ((dishes.map (fun d => d.before_time)).dedup)
    rw [h] at hp
    have := hp.symm.eq_nil
    simpa using this
  · intro h; subst h; rfl

/-- Claim C2: the time-slot filter returns a sub-sequence of the input
dishes (hence in input order) consisting exactly of the dishes whose cutoff
equals the returned bucket time, and an empty dish list yields the empty
result with the sentinel midnight (0 seconds) bucket. -/
theorem C2_filter_dishes (now_t : Nat) (dishes : List Dish)
    (fs : List Dish) (target : Nat)
    (h : filter_dishes_for_next_slot_baseline now_t dishes = (fs, target)) :
    fs.Sublist dishes ∧
    (∀ d ∈ fs, d.before_time = target) ∧
    (∀ d ∈ dishes, d.before_time = target → d ∈ fs) ∧
    (dishes = [] → fs = [] ∧ target = 0) := by
  by_cases hs : sortedSlots dishes = []
  · have hd : dishes = [] := (sortedSlots_eq_nil_iff dishes).mp hs
    subst hd
    have hv : filter_dishes_for_next_slot_baseline now_t [] = (([] : List Dish), 0) := by
      simp [filter_dishes_for_next_slot_baseline, sortedSlots]
    rw [hv] at h
    have h0 : fs = [] ∧ target = 0 :=
      ⟨(Prod.ext_iff.mp h.symm).1, (Prod.ext_iff.mp h.symm).2⟩
    refine ⟨?_, ?_, ?_, fun _ => h0⟩
    · rw [h0.1]
    · intro d hd; rw [h0.1] at hd; cases hd
    · intro d hd; cases hd
  · have hval : filter_dishes_for_next_slot_baseline now_t dishes =
        (dishes.filter (fun d => d.before_time == next_slot_time now_t (sortedSlots dishes)),
         next_slot_time now_t (sortedSlots dishes)) := by
      simp only [filter_dishes_for_next_slot_baseline, if_neg hs]
    rw [hval] at h
    injection h with hfs htg
    subst hfs
    subst htg
    refine ⟨?_, ?_, ?_, ?_⟩
    · exact List.filter_sublist dishes
    · intro d hd
      exact beq_iff_eq.mp (List.mem_filter.mp hd).2
    · intro d hd heq
      exact List.mem_filter.mpr ⟨hd, beq_iff_eq.mpr heq⟩
    · intro hnil
      exact absurd ((sortedSlots_eq_nil_iff dishes).mpr hnil) hs

theorem C2_witness :
    (filter_dishes_for_next_slot_baseline 0 [dishA, dishB]).1.Sublist [dishA, dishB] ∧
    (filter_dishes_for_next_slot_baseline 0 [dishA, dishB]).2 = 39600 :=
  ⟨(C2_filter_dishes 0 [dishA, dishB]
      (filter_dishes_for_next_slot_baseline 0 [dishA, dishB]).1
      (filter_dishes_for_next_slot_baseline 0 [dishA, dishB]).2 rfl).1,
   by decide⟩

theorem dictGet?_cons {α : Type} (k1 : String) (v1 : α) (rest : List (String × α))
    (k : String) :
    dictGet? ((k1, v1) :: rest) k = if k1 = k then some v1 else dictGet? rest k := rfl

theorem dictSet_cons {α : Type} (k1 : String) (v1 : α) (rest : List (String × α))
    (k : String) (v : α) :
    dictSet ((k1, v1) :: rest) k v =
      if k1 = k then (k1, v) :: rest else (k1, v1) :: dictSet rest k v := rfl

theorem dictGet?_mem {α : Type} (d : List (String × α)) (k : String) (v : α)
    (h : dictGet? d k = some v) : (k, v) ∈ d := by
  induction d with
  | nil => cases h
  | cons p rest ih =>
    obtain ⟨k1, v1⟩ := p
    rw [dictGet?_cons] at h
    by_cases hk : k1 = k
    · rw [if_pos hk] at h
      subst hk
      injection h with h
      subst h
      exact List.mem_cons_self _ _
    · rw [if_neg hk] at h
      exact List.mem_cons_of_mem _ (ih h)

theorem dictGet?_ne_none_iff {α : Type} (d : List (String × α)) (k : String) :
    dictGet? d k ≠ none ↔ k ∈ dictKeys d := by
  induction d with
  | nil => simp [dictGet?, dictKeys]
  | cons p rest ih =>
    obtain ⟨k1, v1⟩ := p
    rw [dictGet?_cons]
    by_cases hk : k1 = k
    · subst hk
      simp [dictKeys]
    · rw [if_neg hk, ih]
      simp only [dictKeys, List.map_cons, List.mem_cons]
      constructor
      · intro h; exact Or.inr h
      · rintro (h | h)
        · exact absurd h.symm hk
        · exact h

theorem dictGet?_dictSet {α : Type} (d : List (String × α)) (k : String) (v : α)
    (k1 : String) :
    dictGet? (dictSet d k v) k1 = if k = k1 then some v else dictGet? d k1 := by
  induction d with
  | nil => simp [dictSet, dictGet?_cons, dictGet?]
  | cons p rest ih =>
    obtain ⟨k2, v2⟩ := p
    by_cases h2 : k2 = k
    · subst h2
      by_cases h1 : k2 = k1
      · subst h1; simp [dictSet_cons, dictGet?_cons]
      · simp [dictSet_cons, dictGet?_cons, h1]
    · by_cases h1 : k2 = k1
      · subst h1
        have hkk : ¬k = k2 := fun h => h2 h.symm
        simp [dictSet_cons, dictGet?_cons, h2, hkk]
      · simp [dictSet_cons, dictGet?_cons, h1, h2, ih]

theorem mem_dictSet {α : Type} {d : List (String × α)} {k : String} {v : α}
    {p : String × α} (h : p ∈ dictSet d k v) : p = (k, v) ∨ p ∈ d := by
  induction d with
  | nil => simpa [dictSet] using h
  | cons q rest ih =>
    obtain ⟨k1, v1⟩ := q
    rw [dictSet_cons] at h
    by_cases hk : k1 = k
    · rw [if_pos hk] at h
      subst hk
      rcases List.mem_cons.mp h with h | h
      · left; exact h
      · right; exact List.mem_cons_of_mem _ h
    · rw [if_neg hk] at h
      rcases List.mem_cons.mp h with h | h
      · right; rw [h]; exact List.mem_cons_self _ _
      · rcases ih h with h | h
        · left; exact h
        · right; exact List.mem_cons_of_mem _ h

theorem mem_dictKeys_dictSet {α : Type} {d : List (String × α)} {k : String}
    {v : α} {a : String} (h : a ∈ dictKeys (dictSet d k v)) :
    a ∈ dictKeys d ∨ a = k := by
  simp only [dictKeys, List.mem_map] at h
  obtain ⟨p, hp, hpa⟩ := h
  rcases mem_dictSet hp with h | h
  · right; rw [← hpa, h]
  · left; simp only [dictKeys, List.mem_map]; exact ⟨p, h, hpa⟩

theorem mem_dictKeys_dictSet_of_mem {α : Type} {d : List (String × α)}
    {k : String} {v : α} {a : String} (h : a ∈ dictKeys d) :
    a ∈ dictKeys (dictSet d k v) := by
  induction d with
  | nil => cases h
  | cons q rest ih =>
    obtain ⟨k1, v1⟩ := q
    rw [dictSet_cons]
    by_cases hk : k1 = k
    · rw [if_pos hk]
      simpa [dictKeys] using h
    · rw [if_neg hk]
      simp only [dictKeys, List.map_cons, List.mem_cons] at h ⊢
      rcases h with h | h
      · left; exact h
      · right; exact ih (by simpa [dictKeys] using h)

theorem nodup_dictKeys_dictSet {α : Type} (d : List (String × α)) (k : String)
    (v : α) (h : (dictKeys d).Nodup) : (dictKeys (dictSet d k v)).Nodup := by
  induction d with
  | nil => simp [dictSet, dictKeys]
  | cons q rest ih =>
    obtain ⟨k1, v1⟩ := q
    simp only [dictKeys, List.map_cons, List.nodup_cons] at h
    rw [dictSet_cons]
    by_cases hk : k1 = k
    · rw [if_pos hk]
      simpa [dictKeys, List.nodup_cons] using h
    · rw [if_neg hk]
      simp only [dictKeys, List.map_cons, List.nodup_cons]
      refine ⟨?_, ih h.2⟩
      intro hmem
      rcases mem_dictKeys_dictSet (by simpa [dictKeys] using hmem) with hm | hm
      · exact h.1 (by simpa [dictKeys] using hm)
      · exact hk hm

theorem dictGet?_filter {α : Type} (d : List (String × α)) (f : String × α → Bool)
    (k : String) (hnd : (dictKeys d).Nodup) :
    dictGet? (d.filter f) k =
      (dictGet? d k).bind (fun v => if f (k, v) then some v else none) := by
  induction d with
  | nil => simp [dictGet?]
  | cons p rest ih =>
    obtain ⟨k1, v1⟩ := p
    simp only [dictKeys, List.map_cons, List.nodup_cons] at hnd
    rw [List.filter_cons, dictGet?_cons]
    by_cases hk : k1 = k
    · subst hk
      rw [if_pos rfl, Option.some_bind]
      by_cases hf : f (k1, v1) = true
      · rw [if_pos hf, if_pos hf, dictGet?_cons, if_pos rfl]
      · rw [if_neg hf, if_neg hf]
        cases hcase : dictGet? (List.filter f rest) k1 with
        | none => rfl
        | some w =>
          have hmem : (k1, w) ∈ List.filter f rest := dictGet?_mem _ _ _ hcase
          have hk1 : k1 ∈ List.map Prod.fst rest :=
            List.mem_map.mpr ⟨(k1, w), List.mem_of_mem_filter hmem, rfl⟩
          exact absurd hk1 hnd.1
    · by_cases hf : f (k1, v1) = true
      · rw [if_pos hf, dictGet?_cons, if_neg hk, if_neg hk]
        exact ih hnd.2
      · rw [if_neg hf, if_neg hk]
        exact ih hnd.2

theorem loadDishRow_fields (m : List (String × String)) (row : DishRow) (d : Dish)
    (h : loadDishRow m row = some d) :
    d.menu_id ≠ "" ∧ d.dish ≠ "" ∧
    parse_before_time d.before_timing_raw = some d.before_time ∧
    d.price = (pyFloat? (row.price.getD "0")).getD (.finite 0 1) ∧
    d.menu_id = pyStrip (row.menu_unique_id.getD "") ∧
    d.dish = pyStrip (row.dish.getD "") ∧
    d.before_timing_raw = pyStrip (row.before_timing.getD "") := by
  simp only [loadDishRow] at h
  split at h
  · cases h
  · rename_i hne
    split at h
    · cases h
    · rename_i t hparse
      injection h with h
      subst h
      push_neg at hne
      exact ⟨hne.1, hne.2, by rw [hparse], rfl, rfl, rfl, rfl⟩

theorem foldl_addDishRow_mem (m : List (String × String)) (rows : List DishRow)
    {P : Dish → Prop}
    (hP : ∀ row d, loadDishRow m row = some d → P d) :
    ∀ dbm : List (String × List Dish),
      (∀ p ∈ dbm, ∀ d ∈ p.2, P d) →
      ∀ p ∈ rows.foldl (addDishRow m) dbm, ∀ d ∈ p.2, P d := by
  induction rows with
  | nil => intro dbm hinit; exact hinit
  | cons row rows ih =>
    intro dbm hinit
    rw [List.foldl_cons]
    apply ih
    intro p hp d hd
    unfold addDishRow at hp
    split at hp
    · exact hinit p hp d hd
    · rename_i d0 hrow
      rcases mem_dictSet hp with hpe | hpe
      · subst hpe
        rcases List.mem_append.mp hd with hdo | hdo
        · cases hG : dictGet? dbm d0.menu_id with
          | none => rw [dictGetD, hG] at hdo; cases hdo
          | some l =>
            rw [dictGetD, hG] at hdo
            exact hinit _ (dictGet?_mem _ _ _ hG) d hdo
        · rw [List.mem_singleton] at hdo
          subst hdo
          exact hP row d hrow
      · exact hinit p hpe d hd

theorem foldl_addDishRow_keys_nodup (m : List (String × String))
    (rows : List DishRow) :
    ∀ dbm : List (String × List Dish), (dictKeys dbm).Nodup →
      (dictKeys (rows.foldl (addDishRow m) dbm)).Nodup := by
  induction rows with
  | nil => intro dbm h; exact h
  | cons row rows ih =>
    intro dbm h
    rw [List.foldl_cons]
    apply ih
    unfold addDishRow
    split
    · exact h
    · exact nodup_dictKeys_dictSet _ _ _ h

theorem foldl_addMenuRow_keys_nodup (rows : List MenuRow) :
    ∀ acc : List (String × String) × List (String × String),
      (dictKeys acc.1).Nodup →
      (dictKeys (rows.foldl addMenuRow acc).1).Nodup := by
  induction rows with
  | nil => intro acc h; exact h
  | cons row rows ih =>
    intro acc h
    rw [List.foldl_cons]
    apply ih
    simp only [addMenuRow]
    split
    · exact nodup_dictKeys_dictSet _ _ _ h
    · exact h

theorem buildMenus_keys_nodup (rows : List MenuRow) :
    (dictKeys (buildMenus rows).1).Nodup :=
  foldl_addMenuRow_keys_nodup rows ([], []) (by simp [dictKeys])

theorem dictKeys_map_pair {α β : Type} (m : List (String × α)) (f : α → β) :
    dictKeys (m.map (fun p => (p.1, f p.2))) = dictKeys m := by
  simp [dictKeys, List.map_map]

theorem buildDishes_keys_nodup (menus_raw : List MenuRow) (rows : List DishRow) :
    (dictKeys (buildDishes (buildMenus menus_raw).1 rows)).Nodup := by
  apply foldl_addDishRow_keys_nodup
  have h := dictKeys_map_pair (buildMenus menus_raw).1 (fun _ : String => ([] : List Dish))
  rw [h]
  exact buildMenus_keys_nodup menus_raw

theorem load_data_eq (menus_raw : List MenuRow) (dishes_raw : List DishRow) :
    load_data menus_raw dishes_raw =
      ((buildMenus menus_raw).1.filter
         (fun p =>
           dictGetD (buildDishes (buildMenus menus_raw).1 dishes_raw) p.1 [] ≠ []),
       (buildMenus menus_raw).2,
       (buildDishes (buildMenus menus_raw).1 dishes_raw).filter
         (fun p => p.2 ≠ [])) := rfl

/-- Claim C3: every dish that appears in any menu's dish list of the loaded
catalog has a non-empty menu id, a non-empty name, and a cutoff-time string
that parses to its stored cutoff time; and any dish record with an empty
stripped menu id, an empty stripped dish name, or an unparseable stripped
cutoff-time field is skipped by the loader (it produces no dish at all). -/
theorem C3_invalid_dish_excluded (menus_raw : List MenuRow)
    (dishes_raw : List DishRow) (mid : String) (l : List Dish) (d : Dish)
    (hl : dictGet? (load_data menus_raw dishes_raw).2.2 mid = some l)
    (hd : d ∈ l) :
    (d.menu_id ≠ "" ∧ d.dish ≠ "" ∧
      parse_before_time d.before_timing_raw = some d.before_time) ∧
    ∀ row : DishRow,
      (pyStrip (row.menu_unique_id.getD "") = "" ∨
        pyStrip (row.dish.getD "") = "" ∨
        parse_before_time (pyStrip (row.before_timing.getD "")) = none) →
      loadDishRow (buildMenus menus_raw).1 row = none := by
  constructor
  · rw [load_data_eq] at hl
    have hmem : (mid, l) ∈
        (buildDishes (buildMenus menus_raw).1 dishes_raw).filter
          (fun p => p.2 ≠ []) := dictGet?_mem _ _ _ hl
    have hmem2 : (mid, l) ∈ buildDishes (buildMenus menus_raw).1 dishes_raw :=
      List.mem_of_mem_filter hmem
    have hall := foldl_addDishRow_mem (buildMenus menus_raw).1 dishes_raw
      (P := fun d => d.menu_id ≠ "" ∧ d.dish ≠ "" ∧
        parse_before_time d.before_timing_raw = some d.before_time)
      (fun row d hrow =>
        ⟨(loadDishRow_fields _ row d hrow).1,
         (loadDishRow_fields _ row d hrow).2.1,
         (loadDishRow_fields _ row d hrow).2.2.1⟩)
      ((buildMenus menus_raw).1.map (fun p => (p.1, ([] : List Dish))))
      (by
        intro p hp d hd
        obtain ⟨q, hq, hqe⟩ := List.mem_map.mp hp
        rw [← hqe] at hd
        cases hd)
    exact hall (mid, l) hmem2 d hd
  · intro row hrow
    simp only [loadDishRow]
    rcases hrow with hrow | hrow | hrow
    · rw [if_pos (Or.inl hrow)]
    · rw [if_pos (Or.inr hrow)]
    · split
      · rfl
      · rw [hrow]

/-- Claim C8: every menu id in the loaded menu map has a non-empty dish
list in the loaded dish map, and a menu id whose dish list stayed empty
after the dish loop is removed from both maps. -/
theorem C8_empty_menus_pruned (menus_raw : List MenuRow)
    (dishes_raw : List DishRow) :
    (∀ mid ∈ dictKeys (load_data menus_raw dishes_raw).1,
      ∃ l, dictGet? (load_data menus_raw dishes_raw).2.2 mid = some l ∧ l ≠ []) ∧
    (∀ mid, dictGet? (buildDishes (buildMenus menus_raw).1 dishes_raw) mid = some [] →
      mid ∉ dictKeys (load_data menus_raw dishes_raw).1 ∧
      mid ∉ dictKeys (load_data menus_raw dishes_raw).2.2) := by
  have hnd := buildDishes_keys_nodup menus_raw dishes_raw
  constructor
  · intro mid hmid
    rw [load_data_eq] at hmid
    simp only [dictKeys, List.mem_map] at hmid
    obtain ⟨p, hp, hpe⟩ := hmid
    have hf := List.mem_filter.mp hp
    have hcond := of_decide_eq_true hf.2
    rw [hpe] at hcond
    cases hG : dictGet? (buildDishes (buildMenus menus_raw).1 dishes_raw) mid with
    | none => rw [dictGetD, hG] at hcond; exact absurd rfl hcond
    | some l =>
      rw [dictGetD, hG] at hcond
      have hl : l ≠ [] := by simpa using hcond
      refine ⟨l, ?_, hl⟩
      rw [load_data_eq]
      rw [dictGet?_filter _ _ _ hnd, hG, Option.some_bind]
      simp [hl]
  · intro mid hmid
    constructor
    · intro hmem
      rw [load_data_eq] at hmem
      simp only [dictKeys, List.mem_map] at hmem
      obtain ⟨p, hp, hpe⟩ := hmem
      have hf := List.mem_filter.mp hp
      have hcond := of_decide_eq_true hf.2
      rw [hpe, dictGetD, hmid] at hcond
      exact hcond rfl
    · intro hmem
      rw [load_data_eq] at hmem
      have hne := (dictGet?_ne_none_iff _ _).mpr hmem
      rw [dictGet?_filter _ _ _ hnd, hmid, Option.some_bind] at hne
      simp at hne

theorem C3_witness :
    negPriceDish.menu_id ≠ "" ∧ negPriceDish.dish ≠ "" ∧
    parse_before_time negPriceDish.before_timing_raw = some negPriceDish.before_time :=
  (C3_invalid_dish_excluded [menuRowM1] [negPriceRow] "m1" [negPriceDish]
    negPriceDish (by decide) (by decide)).1

theorem C8_witness :
    ∃ l, dictGet? (load_data [menuRowM1] [negPriceRow]).2.2 "m1" = some l ∧ l ≠ [] :=
  (C8_empty_menus_pruned [menuRowM1] [negPriceRow]).1 "m1" (by decide)

/-- Claim C6: `parse_before_time` tries the accepted formats on the
stripped value in the fixed order 12-hour-with-seconds,
12-hour-without-seconds, 24-hour-with-seconds, 24-hour-without-seconds;
the first matching format wins; an empty value parses to nothing; and a
dish record whose stripped cutoff-time field does not parse is dropped by
the loader entirely. -/
theorem C6_parse_format_order (value : String) :
    (value = "" → parse_before_time value = none) ∧
    (value ≠ "" →
      (∀ t, strpIMSp (pyStrip value).data = some t →
        parse_before_time value = some t) ∧
      (strpIMSp (pyStrip value).data = none →
        ∀ t, strpIMp (pyStrip value).data = some t →
          parse_before_time value = some t) ∧
      (strpIMSp (pyStrip value).data = none →
        strpIMp (pyStrip value).data = none →
        ∀ t, strpHMS (pyStrip value).data = some t →
          parse_before_time value = some t) ∧
      (strpIMSp (pyStrip value).data = none →
        strpIMp (pyStrip value).data = none →
        strpHMS (pyStrip value).data = none →
        parse_before_time value = strpHM (pyStrip value).data)) ∧
    (parse_before_time value = none →
      ∀ (m : List (String × String)) (row : DishRow),
        pyStrip (row.before_timing.getD "") = value →
        loadDishRow m row = none) := by
  refine ⟨?_, ?_, ?_⟩
  · intro h; subst h; rfl
  · intro hne
    refine ⟨?_, ?_, ?_, ?_⟩
    · intro t h1; simp [parse_before_time, hne, h1]
    · intro h1 t h2; simp [parse_before_time, hne, h1, h2]
    · intro h1 h2 t h3; simp [parse_before_time, hne, h1, h2, h3]
    · intro h1 h2 h3; simp [parse_before_time, hne, h1, h2, h3]
  · intro hnone m row hrow
    simp only [loadDishRow, hrow, hnone]
    split
    · rfl
    · rfl

theorem C6_witness : parse_before_time "9:30 PM" = some 77400 :=
  (((C6_parse_format_order "9:30 PM").2.1 (by decide)).2.1 (by decide))
    77400 (by decide)

/-- Claim C7 fails as stated: the record `negPriceRow`, whose "Price" field
is the string `-5`, loads into the catalog as a dish whose price is the
negative value -5; the loader does not enforce non-negativity. -/
theorem C7_counterexample :
    dictGet? (load_data [menuRowM1] [negPriceRow]).2.2 "m1" = some [negPriceDish] ∧
    negPriceDish.price = PyFloat.finite (-5) 1 ∧ (-5 : Int) < 0 :=
  ⟨by decide, by decide, by decide⟩

/-- Claim C7 (amended): when the "Price" field of a dish record fails
Python float parsing, the dish still loads with price 0.0 and no error is
raised (the loader is total); otherwise the loaded price is exactly the
parsed value, which the loader does not constrain to be non-negative. -/
theorem C7_price_fallback (m : List (String × String)) (row : DishRow)
    (d : Dish) (h : loadDishRow m row = some d) :
    (pyFloat? (row.price.getD "0") = none → d.price = .finite 0 1) ∧
    (∀ pf, pyFloat? (row.price.getD "0") = some pf → d.price = pf) := by
  have hp := (loadDishRow_fields m row d h).2.2.2.1
  constructor
  · intro hn; rw [hp, hn]; rfl
  · intro pf hs; rw [hp, hs]; rfl

theorem C7_witness :
    pyFloat? "abc" = none ∧ abcPriceDish.price = PyFloat.finite 0 1 :=
  ⟨by decide,
   (C7_price_fallback [("m1", "Menu One")] abcPriceRow abcPriceDish
     (by decide)).1 (by decide)⟩

theorem mem_getD_addDishRow {m : List (String × String)}
    {dbm : List (String × List Dish)} {row : DishRow} {k : String} {d : Dish}
    (h : d ∈ dictGetD dbm k []) : d ∈ dictGetD (addDishRow m dbm row) k [] := by
  unfold addDishRow
  split
  · exact h
  · rename_i d0 hrow
    rw [dictGetD, dictGet?_dictSet]
    by_cases hk : d0.menu_id = k
    · rw [if_pos hk, Option.getD_some, hk]
      exact List.mem_append_left _ h
    · rw [if_neg hk]
      exact h

theorem mem_getD_foldl_addDishRow (m : List (String × String))
    (rows : List DishRow) :
    ∀ (dbm : List (String × List Dish)) (k : String) (d : Dish),
      d ∈ dictGetD dbm k [] →
      d ∈ dictGetD (rows.foldl (addDishRow m) dbm) k [] := by
  induction rows with
  | nil => intro dbm k d h; exact h
  | cons r rs ih =>
    intro dbm k d h
    rw [List.foldl_cons]
    exact ih _ k d (mem_getD_addDishRow h)

theorem mem_getD_addDishRow_self {m : List (String × String)}
    {dbm : List (String × List Dish)} {row : DishRow} {d : Dish}
    (hrow : loadDishRow m row = some d) :
    d ∈ dictGetD (addDishRow m dbm row) d.menu_id [] := by
  simp only [addDishRow, hrow]
  rw [dictGetD, dictGet?_dictSet, if_pos rfl, Option.getD_some]
  exact List.mem_append_right _ (List.mem_singleton.mpr rfl)

theorem buildDishes_includes (m : List (String × String)) (rows : List DishRow)
    (row : DishRow) (d : Dish) (hrow : row ∈ rows)
    (hld : loadDishRow m row = some d) :
    d ∈ dictGetD (buildDishes m rows) d.menu_id [] := by
  unfold buildDishes
  have aux : ∀ (rows2 : List DishRow) (dbm : List (String × List Dish)),
      row ∈ rows2 →
      d ∈ dictGetD (rows2.foldl (addDishRow m) dbm) d.menu_id [] := by
    intro rows2
    induction rows2 with
    | nil => intro dbm h; cases h
    | cons r rs ih =>
      intro dbm h
      rw [List.foldl_cons]
      rcases List.mem_cons.mp h with h | h
      · subst h
        exact mem_getD_foldl_addDishRow m rs _ _ _ (mem_getD_addDishRow_self hld)
      · exact ih _ h
  exact aux rows _ hrow

/-- Claim C9: every dish record with a non-empty stripped menu id, a
non-empty stripped dish name and a parseable cutoff time loads into the
dish map under its menu id, for arbitrary menu-list input — in particular
when that id has no menu-list record; so the dish map's key set can
strictly contain the menu map's key set (witnessed by `orphanRow` against
an empty menu list), and the "random menu" action, which draws from the
dish map's keys, can then select a menu id that has neither a name nor an
audience note in the menu maps, falling back to "Selected Menu". -/
theorem C9_orphan_menu (menus_raw : List MenuRow) (dishes_raw : List DishRow)
    (row : DishRow) (hrow : row ∈ dishes_raw)
    (hmid : pyStrip (row.menu_unique_id.getD "") ≠ "")
    (hname : pyStrip (row.dish.getD "") ≠ "")
    (ht : parse_before_time (pyStrip (row.before_timing.getD "")) ≠ none) :
    (∃ d l, loadDishRow (buildMenus menus_raw).1 row = some d ∧
      d.menu_id = pyStrip (row.menu_unique_id.getD "") ∧
      dictGet? (load_data menus_raw dishes_raw).2.2 d.menu_id = some l ∧
      d ∈ l) ∧
    (load_data [] [orphanRow]).1 = [] ∧
    (load_data [] [orphanRow]).2.1 = [] ∧
    dictGet? (load_data [] [orphanRow]).2.2 "x" = some [orphanDish] ∧
    (on_button catOrphan envX "r" ChatData.cleared).1.menu_id = some "x" ∧
    (on_button catOrphan envX "r" ChatData.cleared).2 =
      [Effect.answerCallback, Effect.logEvent "menu_random",
       Effect.editToSelectedMenu 3 "x",
       Effect.sendDishList "Selected Menu" [orphanDish]] := by
  constructor
  · have hex : ∃ d, loadDishRow (buildMenus menus_raw).1 row = some d ∧
        d.menu_id = pyStrip (row.menu_unique_id.getD "") := by
      simp only [loadDishRow]
      rw [if_neg (by push_neg; exact ⟨hmid, hname⟩)]
      cases hpt : parse_before_time (pyStrip (row.before_timing.getD "")) with
      | none => exact absurd hpt ht
      | some t => exact ⟨_, rfl, rfl⟩
    obtain ⟨d, hld, hdm⟩ := hex
    have hmem1 : d ∈
        dictGetD (buildDishes (buildMenus menus_raw).1 dishes_raw) d.menu_id [] :=
      buildDishes_includes _ dishes_raw row d hrow hld
    cases hG : dictGet? (buildDishes (buildMenus menus_raw).1 dishes_raw) d.menu_id with
    | none =>
      rw [dictGetD, hG] at hmem1
      cases hmem1
    | some l =>
      rw [dictGetD, hG, Option.getD_some] at hmem1
      have hlne : l ≠ [] := List.ne_nil_of_mem hmem1
      refine ⟨d, l, hld, hdm, ?_, hmem1⟩
      rw [load_data_eq,
        dictGet?_filter _ _ _ (buildDishes_keys_nodup menus_raw dishes_raw),
        hG, Option.some_bind]
      simp [hlne]
  · exact ⟨by decide, by decide, by decide, by decide, by decide⟩

theorem C9_witness :
    ∃ d l, loadDishRow (buildMenus ([] : List MenuRow)).1 orphanRow = some d ∧
      d.menu_id = pyStrip (orphanRow.menu_unique_id.getD "") ∧
      dictGet? (load_data [] [orphanRow]).2.2 d.menu_id = some l ∧ d ∈ l :=
  (C9_orphan_menu [] [orphanRow] orphanRow (List.mem_singleton.mpr rfl)
    (by decide) (by decide) (by decide)).1

theorem show_filtered_inv (cat : Catalog) (env : Env) (s : ChatData)
    (h : s.Inv) : (show_filtered_cards_send_new cat env s).1.Inv := by
  simp only [show_filtered_cards_send_new]
  split
  · exact h
  · rename_i hne
    simp [ChatData.Inv, hne]

/-- Claim C5: the both-populated-or-both-empty invariant linking
`cards_dishes` and `list_msg_id` is preserved by every `on_button`
transition (menu list, random menu, select menu, back, select dish,
fallback) and by `on_text`, and holds in a cleared session. -/
theorem C5_state_invariant (cat : Catalog) (env : Env) (data : String)
    (s : ChatData) (h : s.Inv) :
    (on_button cat env data s).1.Inv ∧ (on_text s).1.Inv ∧
    ChatData.cleared.Inv := by
  refine ⟨?_, h, by simp [ChatData.Inv, ChatData.cleared]⟩
  rw [on_button]
  unfold on_button_core
  split
  · simp [ChatData.Inv, ChatData.cleared]
  · apply show_filtered_inv
    split
    · exact h
    · exact h
  · split
    · exact h
    · apply show_filtered_inv
      exact h
  · simp [ChatData.Inv]
  · split
    · exact h
    · split
      · exact h
      · simp [ChatData.Inv]
  · exact h

theorem C5_witness : (on_button catX envX "b" stateTwoDishes).1.Inv :=
  (C5_state_invariant catX envX "b" stateTwoDishes
    (by simp [ChatData.Inv, stateTwoDishes])).1

theorem data_append_sel (payload : String) :
    ("sel:" ++ payload).data = 's' :: 'e' :: 'l' :: ':' :: payload.data := by
  rw [String.data_append]; rfl

/-- Claim C4 (amended): for every session state and every parsed integer
dish index outside `[0, len(cards_dishes))` — which covers every index when
the visible list is empty — the "select dish" handler leaves the session
state unchanged, redirects the user to the top-level menu list, and raises
no error; no log entry is produced on this path. -/
theorem C4_out_of_range_redirect (cat : Catalog) (env : Env) (s : ChatData)
    (payload : String) (idx : Int) (hp : pyInt? payload = some idx)
    (hout : idx < 0 ∨ (s.cards_dishes.length : Int) ≤ idx) :
    on_button cat env ("sel:" ++ payload) s =
      (s, [Effect.answerCallback,
           Effect.editToMenuList (s.menu_subset.getD env.subsetSample)]) ∧
    ∀ e ∈ (on_button cat env ("sel:" ++ payload) s).2, e.isLog = false := by
  have hcore : on_button cat env ("sel:" ++ payload) s =
      on_button_core cat env ('s' :: 'e' :: 'l' :: ':' :: payload.data) s := by
    rw [on_button, data_append_sel]
  have hres : on_button cat env ("sel:" ++ payload) s =
      (s, [Effect.answerCallback,
           Effect.editToMenuList (s.menu_subset.getD env.subsetSample)]) := by
    rw [hcore]
    simp only [on_button_core]
    by_cases hm : s.menu_id = none
    · rw [if_pos hm]
    · rw [if_neg hm]
      have hidx : (pyInt? (⟨payload.data⟩ : String)).getD 0 = idx := by
        have hmk : (⟨payload.data⟩ : String) = payload := rfl
        rw [hmk, hp]; rfl
      rw [if_pos]
      rw [hidx]
      exact Or.inr (hout.imp (fun h1 => h1) (fun h1 => Or.inl h1))
  refine ⟨hres, ?_⟩
  rw [hres]
  intro e he
  rcases List.mem_cons.mp he with h1 | h1
  · subst h1; rfl
  · rw [List.mem_singleton] at h1; subst h1; rfl

theorem C4_witness :
    on_button catX envX ("sel:" ++ "2") stateTwoDishes =
      (stateTwoDishes,
       [Effect.answerCallback, Effect.editToMenuList ["m1"]]) := by
  have h := (C4_out_of_range_redirect catX envX stateTwoDishes "2" 2
    (by decide) (by decide)).1
  rw [h]
  decide

/-- Claim C4 fails as stated on its log-entry conjunct: pressing
"select dish: 2" with only two visible dishes (indices 0 and 1) redirects
to the menu list with the state unchanged, but no log entry of any kind is
produced on this path. -/
theorem C4_counterexample :
    on_button catX envX "sel:2" stateTwoDishes =
      (stateTwoDishes, [Effect.answerCallback, Effect.editToMenuList ["m1"]]) ∧
    ∀ e ∈ (on_button catX envX "sel:2" stateTwoDishes).2, e.isLog = false := by
  refine ⟨by decide, by decide⟩

/-- Claim C10: a "select dish" token whose index payload is not a parseable
integer is treated as index 0: with an active menu, a non-empty visible
dish list and a live list-message reference, the handler selects the first
visible dish, edits the list message to its card, records it to the
dashboard, logs the selection, and sends its challenge, instead of
redirecting to the menu list. -/
theorem C10_unparseable_index_zero (cat : Catalog) (env : Env) (s : ChatData)
    (payload : String) (mid : String) (n : Nat)
    (hp : pyInt? payload = none) (hm : s.menu_id = some mid)
    (hc : s.cards_dishes ≠ []) (hl : s.list_msg_id = some n) (hn : n ≠ 0) :
    ∃ d rest, s.cards_dishes = d :: rest ∧
      on_button cat env ("sel:" ++ payload) s =
        ({ s with cards_dishes := [], list_msg_id := none },
         [Effect.answerCallback, Effect.editToCard n d,
          Effect.appendDashboard d.challenge_id d.dish
            (dictGetD cat.menus_by_id d.menu_id d.menu_name),
          Effect.logEvent "dish_selected", Effect.sendChallenge d,
          Effect.sendCommandsHelp]) := by
  obtain ⟨d, rest, hcons⟩ :
      ∃ d rest, s.cards_dishes = d :: rest := by
    cases hcd : s.cards_dishes with
    | nil => exact absurd hcd hc
    | cons d rest => exact ⟨d, rest, rfl⟩
  refine ⟨d, rest, hcons, ?_⟩
  have hcore : on_button cat env ("sel:" ++ payload) s =
      on_button_core cat env ('s' :: 'e' :: 'l' :: ':' :: payload.data) s := by
    rw [on_button, data_append_sel]
  rw [hcore]
  simp only [on_button_core]
  rw [if_neg (by rw [hm]; exact fun hx => Option.noConfusion hx)]
  have hidx : (pyInt? (⟨payload.data⟩ : String)).getD 0 = (0 : Int) := by
    have hmk : (⟨payload.data⟩ : String) = payload := rfl
    rw [hmk, hp]; rfl
  rw [if_neg]
  · rw [hidx, hl, hcons]
    rfl
  · rw [hidx, hcons, hl]
    push_neg
    refine ⟨by simp, by decide, ?_, ?_⟩
    · have hlen : (0 : Int) < ((d :: rest).length : Int) := by
        simp [List.length_cons]
      omega
    · simp [optNatTruthy, hn]

theorem C10_witness :
    on_button catX envX "sel:abc" stateTwoDishes =
      ({ stateTwoDishes with cards_dishes := [], list_msg_id := none },
       [Effect.answerCallback, Effect.editToCard 7 dishA,
        Effect.appendDashboard "c1" "Dish A" "Menu One",
        Effect.logEvent "dish_selected", Effect.sendChallenge dishA,
        Effect.sendCommandsHelp]) := by
  obtain ⟨d, rest, hcons, hres⟩ :=
    C10_unparseable_index_zero catX envX stateTwoDishes "abc" "m1" 7
      (by decide) (by decide) (by decide) (by decide) (by decide)
  have h2 : [dishA, dishB] = d :: rest := hcons
  injection h2 with h3 h4
  subst h3
  subst h4
  have hs : ("sel:" ++ "abc" : String) = "sel:abc" := by decide
  rw [hs] at hres
  rw [hres]
  decide
